import Mathlib

/-!
Verification development for the MinDE local-velocity batch pipeline
(`min_analysis_scripts/batch_local_velocity.py`).

The batch script drives an excluded analysis core. We embed the script
shallowly: Python floats are modelled as rationals (`Rat`), numpy result
arrays as `List Rat`, CSV cells as a string/value sum type, exceptions as
`Except String`. The excluded collaborators (`local_velocity_analysis`
result sequences and `get_auto_halfspan`) are treated as opaque inputs:
the per-stack result sequences are fields of `StackData`, and the
auto-halfspan heuristic is an arbitrary function parameter, exactly as
the spec prescribes ("an opaque function (stack, frame_count) -> int").
-/

namespace MinDE

/-- A CSV cell: Python writes either a string (the filename) or a number. -/
inductive Cell where
  | str : String → Cell
  | val : Rat → Cell
  deriving DecidableEq, Repr

/-- The module-level SET configuration of `batch_local_velocity.py`
(lines 31-44).  `look_ahead` is intentionally absent: it is not among the
SET parameters; the script hard-codes it at the call site (line 120). -/
structure Config where
  nmperpix : Option Rat
  frpermin : Option Rat
  frames_to_analyse : Nat
  halfspan : Option Int
  sampling_width : Rat
  edge : Rat
  bins_wheel : Nat
  binwidth_sum : Rat
  kernel_size_general : Int
  kernel_size_flow : Int
  deriving DecidableEq, Repr

/-- One input stack together with the (opaque, index-aligned by intent)
result sequences that `local_velocity_analysis` returns for it
(lines 95-122).  `frameDims` records the height/width of each frame of
the tif stack; the ten lists are the per-record outputs consumed by the
CSV loop. -/
structure StackData where
  name : String
  frameDims : List (Nat × Nat)
  velocities : List Rat
  forward_wavevector_x : List Rat
  forward_wavevector_y : List Rat
  crests_x : List Rat
  crests_y : List Rat
  framenr : List Rat
  max_x1 : List Rat
  max_y1 : List Rat
  max_x2 : List Rat
  max_y2 : List Rat
  deriving DecidableEq, Repr

/-- Python division: raises ZeroDivisionError on a zero divisor. -/
def pyDiv (a b : Rat) : Except String Rat :=
  if b = 0 then .error "ZeroDivisionError" else .ok (a / b)

/-- Lines 56-61: the unit string chosen for the CSV header. -/
def unitOf (cfg : Config) : String :=
  if cfg.nmperpix.isSome && cfg.frpermin.isSome then "nm/s" else "pixels/frame"

/-- Lines 56-61: `factor = nmperpix / (60 / frpermin)` when both are set,
else `factor = 1`. -/
def factorOf (cfg : Config) : Except String Rat :=
  match cfg.nmperpix, cfg.frpermin with
  | some n, some f => do
      let d ← pyDiv 60 f
      pyDiv n d
  | _, _ => .ok 1

/-- Lines 63-75: the 11-entry CSV header row. -/
def headerRow (cfg : Config) : List Cell :=
  [ .str "filename",
    .str ("velocities (" ++ unitOf cfg ++ ")"),
    .str "forward_wavevector_x",
    .str "forward_wavevector_y",
    .str "crests_x (pixel position)",
    .str "crests_y (pixel position)",
    .str "frame_nr",
    .str ("trace_max_1 (" ++ toString cfg.sampling_width ++ "*pixels)"),
    .str "intensity_max_1",
    .str ("trace_max_2 (" ++ toString cfg.sampling_width ++ "*pixels)"),
    .str "intensity_max_2" ]

/-- Lines 91-93 and the call at line 113: `halfspan_tmp` is assigned only
inside the `if halfspan is None` branch, so when `halfspan` is set the
name is unbound at the call and Python raises NameError.  `auto` is the
opaque `get_auto_halfspan` collaborator. -/
def halfspanArgument (auto : StackData → Nat → Int) (cfg : Config)
    (s : StackData) : Except String Int :=
  match cfg.halfspan with
  | none => .ok (auto s cfg.frames_to_analyse)
  | some _ => .error "NameError: name halfspan_tmp is not defined"

/-- Line 120: the `look_ahead` argument of the `local_velocity_analysis`
call is the literal `1`, whatever the SET configuration is. -/
def lookAheadArgument (_cfg : Config) : Int := 1

/-- Modelled from the spec: `local_velocity_analysis` is not under `src/`;
spec section 7 defines ConfigurationError as "non-positive kernel sizes,
mismatched frame dimensions, or frames_to_analyse exceeding stack length
— must be reported to the caller before any processing begins for that
stack".  This check is everything the batch-level claims need of it. -/
def localVelocityValidate (cfg : Config) (s : StackData) :
    Except String Unit :=
  if cfg.kernel_size_general ≤ 0 then
    .error "ConfigurationError: non-positive kernel_size_general"
  else if cfg.kernel_size_flow ≤ 0 then
    .error "ConfigurationError: non-positive kernel_size_flow"
  else if !(s.frameDims.all (fun d => d = s.frameDims.headD (0, 0))) then
    .error "ConfigurationError: mismatched frame dimensions"
  else if s.frameDims.length < cfg.frames_to_analyse then
    .error "ConfigurationError: frames_to_analyse exceeds stack length"
  else
    .ok ()

/-- Lines 132-146: the row written for record `n`, with Python indexing
(`none` models IndexError).  Field order is exactly that of the source
list literal: stackname first, then the ten per-record values, the
velocity scaled by `fac`. -/
def csvRow (fac : Rat) (s : StackData) (n : Nat) : Option (List Cell) := do
  let v ← s.velocities.get? n
  let wx ← s.forward_wavevector_x.get? n
  let wy ← s.forward_wavevector_y.get? n
  let cx ← s.crests_x.get? n
  let cy ← s.crests_y.get? n
  let fr ← s.framenr.get? n
  let m1x ← s.max_x1.get? n
  let m1y ← s.max_y1.get? n
  let m2x ← s.max_x2.get? n
  let m2y ← s.max_y2.get? n
  return [ .str s.name, .val (v * fac), .val wx, .val wy, .val cx,
           .val cy, .val fr, .val m1x, .val m1y, .val m2x, .val m2y ]

/-- The row for record `n` written with total accesses (meaningful under
index alignment, where it agrees with `csvRow`). -/
def recordRow (fac : Rat) (s : StackData) (n : Nat) : List Cell :=
  [ .str s.name,
    .val (((s.velocities.get? n).getD 0) * fac),
    .val ((s.forward_wavevector_x.get? n).getD 0),
    .val ((s.forward_wavevector_y.get? n).getD 0),
    .val ((s.crests_x.get? n).getD 0),
    .val ((s.crests_y.get? n).getD 0),
    .val ((s.framenr.get? n).getD 0),
    .val ((s.max_x1.get? n).getD 0),
    .val ((s.max_y1.get? n).getD 0),
    .val ((s.max_x2.get? n).getD 0),
    .val ((s.max_y2.get? n).getD 0) ]

/-- Line 131: `for n in range(velocities.size)`, writing one row per index;
an out-of-bounds access aborts with IndexError (`none`). -/
def writeRows (fac : Rat) (s : StackData) : List Nat → Option (List (List Cell))
  | [] => some []
  | n :: ns => do
      let r ← csvRow fac s n
      let rest ← writeRows fac s ns
      return r :: rest

/-- The data-row block a stack contributes, in record-index order. -/
def stackRecordRows (fac : Rat) (s : StackData) : List (List Cell) :=
  (List.range s.velocities.length).map (recordRow fac s)

/-- Lines 84-146, body of the stack loop: evaluate `halfspan_tmp`
(NameError when `halfspan` is set), call the analysis (its configuration
validation modelled from the spec), then write one CSV row per record.
Errors propagate: the script has no try/except. -/
def processStack (auto : StackData → Nat → Int) (cfg : Config) (fac : Rat)
    (s : StackData) : Except String (List (List Cell)) := do
  let _hs ← halfspanArgument auto cfg s
  let _ ← localVelocityValidate cfg s
  match writeRows fac s (List.range s.velocities.length) with
  | some rows => return rows
  | none => Except.error "IndexError"

/-- The stack loop: each stack appends its rows to the file; an uncaught
exception stops the run, leaving the file as already written. -/
def runStacks (auto : StackData → Nat → Int) (cfg : Config) (fac : Rat) :
    List StackData → List (List Cell) → List (List Cell)
  | [], file => file
  | s :: rest, file =>
      match processStack auto cfg fac s with
      | .ok rows => runStacks auto cfg fac rest (file ++ rows)
      | .error _ => file

/-- The stacks actually processed to completion: the longest prefix on
which `processStack` succeeds. -/
def completedStacks (auto : StackData → Nat → Int) (cfg : Config)
    (fac : Rat) : List StackData → List StackData
  | [] => []
  | s :: rest =>
      match processStack auto cfg fac s with
      | .ok _ => s :: completedStacks auto cfg fac rest
      | .error _ => []

/-- Lines 49-146: the whole run.  The CSV file is created with just the
header (mode "w" truncates: previous contents are discarded), then the
stack loop appends.  If `factor` itself raises, the file is never
created (modelled as the empty line list). -/
def batchFile (auto : StackData → Nat → Int) (cfg : Config)
    (sts : List StackData) : List (List Cell) :=
  match factorOf cfg with
  | .error _ => []
  | .ok fac => runStacks auto cfg fac sts [headerRow cfg]

/-- Index alignment of the ten result sequences (spec: "ordered sequences
(index-aligned)"). -/
def aligned (s : StackData) : Prop :=
  s.forward_wavevector_x.length = s.velocities.length ∧
  s.forward_wavevector_y.length = s.velocities.length ∧
  s.crests_x.length = s.velocities.length ∧
  s.crests_y.length = s.velocities.length ∧
  s.framenr.length = s.velocities.length ∧
  s.max_x1.length = s.velocities.length ∧
  s.max_y1.length = s.velocities.length ∧
  s.max_x2.length = s.velocities.length ∧
  s.max_y2.length = s.velocities.length

instance (s : StackData) : Decidable (aligned s) := by
  unfold aligned; infer_instance

/-!
### FlowField (spec-modelled)

The optical-flow solver lives in the excluded `min_analysis_tools`
package, not under `src/`; the definitions below are modelled from spec
section 4.1: pre-smooth both frames with a low-pass kernel of the given
size, then run a fixed, deterministic number of Horn-Schunck iterations
(update: new flow = neighbourhood average of the flow, corrected by the
brightness-constancy residual scaled by the spatial gradient, with a
fixed regularisation weight).  Frames are total intensity grids, so no
boundary conditions obscure the claim.
-/

/-- Modelled from the spec: an intensity frame as a total grid. -/
def Frame : Type := Int → Int → Rat

/-- The offsets `-k .. k` of a smoothing window. -/
def window (k : Nat) : List Int :=
  (List.range (2 * k + 1)).map (fun (i : Nat) => (i : Int) - (k : Int))

/-- Modelled from the spec: low-pass pre-smoothing ("Gaussian or
equivalent") as a normalised box average over a `(2k+1) x (2k+1)`
window. -/
def boxSmooth (k : Nat) (f : Frame) : Frame := fun x y =>
  (((window k).map (fun i =>
      ((window k).map (fun j => f (x + i) (y + j))).sum)).sum)
    / (((2 * k + 1 : Nat) : Rat) ^ 2)

/-- Spatial x-derivative (central difference). -/
def gradX (f : Frame) : Frame := fun x y => (f (x + 1) y - f (x - 1) y) / 2

/-- Spatial y-derivative (central difference). -/
def gradY (f : Frame) : Frame := fun x y => (f x (y + 1) - f x (y - 1)) / 2

/-- Temporal derivative between the two (smoothed) frames. -/
def gradT (f g : Frame) : Frame := fun x y => g x y - f x y

/-- Modelled from the spec: one Horn-Schunck iteration with
regularisation weight `alpha2`.  `fx, fy, ft` are the image gradients;
the flow components are replaced by their neighbourhood averages minus
the brightness-constancy correction. -/
def hsStep (alpha2 : Rat) (fx fy ft : Frame) (uv : Frame × Frame) :
    Frame × Frame :=
  let ubar := boxSmooth 1 uv.1
  let vbar := boxSmooth 1 uv.2
  ( fun x y => ubar x y -
      fx x y * (fx x y * ubar x y + fy x y * vbar x y + ft x y)
        / (alpha2 + fx x y ^ 2 + fy x y ^ 2),
    fun x y => vbar x y -
      fy x y * (fx x y * ubar x y + fy x y * vbar x y + ft x y)
        / (alpha2 + fx x y ^ 2 + fy x y ^ 2) )

/-- `iters` Horn-Schunck iterations from the zero field. -/
def hsIter (step : Frame × Frame → Frame × Frame) : Nat → Frame × Frame
  | 0 => (fun _ _ => 0, fun _ _ => 0)
  | n + 1 => step (hsIter step n)

/-- Modelled from the spec:
`compute(frame_t, frame_t1, smoothing_kernel_size) -> FlowVectorField`
with a fixed iteration count and regularisation weight; a total function
of its inputs (no error path). -/
def FlowField_compute (kernel : Nat) (alpha2 : Rat) (iters : Nat)
    (f g : Frame) : Frame × Frame :=
  let fs := boxSmooth kernel f
  let gs := boxSmooth kernel g
  hsIter (hsStep alpha2 (gradX fs) (gradY fs) (gradT fs gs)) iters

/-!
### The stack loop as a step relation

Determinism of the pipeline is stated against a relational version of
the loop: any two results related to the same inputs coincide.
-/

/-- One run of the stack loop (lines 84-146) as a relation between the
stack list, the file contents at entry, and the file contents when the
script ends (normally or by an uncaught exception). -/
inductive BatchRun (auto : StackData → Nat → Int) (cfg : Config)
    (fac : Rat) : List StackData → List (List Cell) → List (List Cell) → Prop
  where
  | done : ∀ file, BatchRun auto cfg fac [] file file
  | step_ok : ∀ s rest file rows out,
      processStack auto cfg fac s = .ok rows →
      BatchRun auto cfg fac rest (file ++ rows) out →
      BatchRun auto cfg fac (s :: rest) file out
  | step_err : ∀ s rest file e,
      processStack auto cfg fac s = .error e →
      BatchRun auto cfg fac (s :: rest) file file

/-!
### Concrete data for witnesses
-/

/-- A stack with two equal-sized frames and one analysis record. -/
def sampleStack : StackData :=
  { name := "stackA"
    frameDims := [(4, 4), (4, 4)]
    velocities := [2]
    forward_wavevector_x := [1]
    forward_wavevector_y := [0]
    crests_x := [3]
    crests_y := [4]
    framenr := [0]
    max_x1 := [5]
    max_y1 := [6]
    max_x2 := [7]
    max_y2 := [8] }

/-- A second well-formed stack with one analysis record. -/
def sampleStack2 : StackData :=
  { name := "stackC"
    frameDims := [(4, 4), (4, 4)]
    velocities := [9]
    forward_wavevector_x := [0]
    forward_wavevector_y := [1]
    crests_x := [1]
    crests_y := [2]
    framenr := [1]
    max_x1 := [3]
    max_y1 := [4]
    max_x2 := [5]
    max_y2 := [6] }

/-- A stack with a single frame: too short once `frames_to_analyse = 2`. -/
def shortStack : StackData :=
  { name := "stackB"
    frameDims := [(4, 4)]
    velocities := []
    forward_wavevector_x := []
    forward_wavevector_y := []
    crests_x := []
    crests_y := []
    framenr := []
    max_x1 := []
    max_y1 := []
    max_x2 := []
    max_y2 := [] }

/-- The script's shipped SET values (lines 32-44), with
`frames_to_analyse` lowered to 2 so the sample stacks are long enough. -/
def sampleConfig : Config :=
  { nmperpix := none
    frpermin := none
    frames_to_analyse := 2
    halfspan := none
    sampling_width := 1 / 4
    edge := 30
    bins_wheel := 50
    binwidth_sum := 5 / 2
    kernel_size_general := 20
    kernel_size_flow := 50 }

/-- A concrete stand-in for the opaque auto-halfspan heuristic. -/
def autoFive : StackData → Nat → Int := fun _ _ => 5

/-- `sampleConfig` with physical units switched on. -/
def cfgUnits : Config :=
  { sampleConfig with nmperpix := some 2, frpermin := some 3 }

/-!
### Helper lemmas
-/

theorem exists_get?_of_lt {l : List Rat} {n : Nat} (h : n < l.length) :
    ∃ v, l.get? n = some v :=
  ⟨l.get ⟨n, h⟩, List.get?_eq_get h⟩

/-- A successful `csvRow` is exactly the corresponding `recordRow`. -/
theorem csvRow_eq_recordRow {fac : Rat} {s : StackData} {n : Nat}
    {r : List Cell} (h : csvRow fac s n = some r) :
    r = recordRow fac s n := by
  simp only [csvRow, bind, Option.bind_eq_some, pure, Option.some.injEq] at h
  obtain ⟨v, hv, wx, hwx, wy, hwy, cx, hcx, cy, hcy, fr, hfr,
    a1, ha1, b1, hb1, a2, ha2, b2, hb2, hr⟩ := h
  subst hr
  simp only [List.get?_eq_getElem?] at hv hwx hwy hcx hcy hfr ha1 hb1 ha2 hb2
  simp [recordRow, hv, hwx, hwy, hcx, hcy, hfr, ha1, hb1, ha2, hb2]

/-- Under index alignment every in-range `csvRow` succeeds. -/
theorem csvRow_of_aligned (fac : Rat) (s : StackData) (n : Nat)
    (h : aligned s) (hn : n < s.velocities.length) :
    csvRow fac s n = some (recordRow fac s n) := by
  obtain ⟨h1, h2, h3, h4, h5, h6, h7, h8, h9⟩ := h
  obtain ⟨v, hv⟩ := exists_get?_of_lt hn
  obtain ⟨wx, hwx⟩ := exists_get?_of_lt (h1 ▸ hn)
  obtain ⟨wy, hwy⟩ := exists_get?_of_lt (h2 ▸ hn)
  obtain ⟨cx, hcx⟩ := exists_get?_of_lt (h3 ▸ hn)
  obtain ⟨cy, hcy⟩ := exists_get?_of_lt (h4 ▸ hn)
  obtain ⟨fr, hfr⟩ := exists_get?_of_lt (h5 ▸ hn)
  obtain ⟨a1, ha1⟩ := exists_get?_of_lt (h6 ▸ hn)
  obtain ⟨b1, hb1⟩ := exists_get?_of_lt (h7 ▸ hn)
  obtain ⟨a2, ha2⟩ := exists_get?_of_lt (h8 ▸ hn)
  obtain ⟨b2, hb2⟩ := exists_get?_of_lt (h9 ▸ hn)
  simp only [List.get?_eq_getElem?] at hv hwx hwy hcx hcy hfr ha1 hb1 ha2 hb2
  simp [csvRow, recordRow, hv, hwx, hwy, hcx, hcy, hfr, ha1, hb1, ha2, hb2]

/-- A successful `writeRows` produced exactly the record rows of its
index list. -/
theorem writeRows_eq_map {fac : Rat} {s : StackData} :
    ∀ {ns : List Nat} {rows : List (List Cell)},
      writeRows fac s ns = some rows → rows = ns.map (recordRow fac s)
  | [], rows, h => by
      simpa [writeRows] using h.symm
  | n :: ns, rows, h => by
      simp only [writeRows, bind, Option.bind_eq_some, pure,
        Option.some.injEq] at h
      obtain ⟨r, hr, rest, hrest, hrows⟩ := h
      subst hrows
      simp [csvRow_eq_recordRow hr, writeRows_eq_map hrest]

/-- Under index alignment the whole row loop succeeds. -/
theorem writeRows_of_aligned (fac : Rat) (s : StackData) (h : aligned s) :
    ∀ ns : List Nat, (∀ n ∈ ns, n < s.velocities.length) →
      writeRows fac s ns = some (ns.map (recordRow fac s))
  | [], _ => by simp [writeRows]
  | n :: ns, hns => by
      have hn := hns n (by simp)
      have hrest := writeRows_of_aligned fac s h ns
        (fun m hm => hns m (by simp [hm]))
      simp [writeRows, csvRow_of_aligned fac s n h hn, hrest]

/-- The shape of a successful `processStack`. -/
theorem processStack_ok_shape {auto : StackData → Nat → Int} {cfg : Config}
    {fac : Rat} {s : StackData} {rows : List (List Cell)}
    (h : processStack auto cfg fac s = .ok rows) :
    rows = stackRecordRows fac s := by
  unfold processStack at h
  cases hh : halfspanArgument auto cfg s with
  | error e => rw [hh] at h; exact absurd h (by simp [bind, Except.bind])
  | ok hs =>
    rw [hh] at h
    cases hval : localVelocityValidate cfg s with
    | error e =>
        rw [hval] at h; exact absurd h (by simp [bind, Except.bind])
    | ok u =>
      rw [hval] at h
      cases hw : writeRows fac s (List.range s.velocities.length) with
      | none => rw [hw] at h; exact absurd h (by simp [bind, Except.bind])
      | some rows0 =>
        rw [hw] at h
        simp only [bind, Except.bind, pure, Except.pure, Except.ok.injEq] at h
        subst h
        rw [writeRows_eq_map hw, stackRecordRows]

/-- `processStack` succeeds on an aligned stack that passes validation,
when `halfspan` is `None`. -/
theorem processStack_ok (auto : StackData → Nat → Int) (cfg : Config)
    (fac : Rat) (s : StackData) (hh : cfg.halfspan = none)
    (hval : localVelocityValidate cfg s = .ok ()) (hal : aligned s) :
    processStack auto cfg fac s = .ok (stackRecordRows fac s) := by
  have hw := writeRows_of_aligned fac s hal
    (List.range s.velocities.length) (fun n hn => List.mem_range.mp hn)
  simp [processStack, halfspanArgument, hh, hval, hw, bind, Except.bind,
    pure, Except.pure, stackRecordRows]

/-- The loop appends exactly the rows of the completed prefix. -/
theorem runStacks_eq (auto : StackData → Nat → Int) (cfg : Config)
    (fac : Rat) : ∀ (l : List StackData) (file : List (List Cell)),
    runStacks auto cfg fac l file =
      file ++ (completedStacks auto cfg fac l).flatMap (stackRecordRows fac)
  | [], file => by simp [runStacks, completedStacks]
  | s :: rest, file => by
      rw [runStacks, completedStacks]
      cases hp : processStack auto cfg fac s with
      | ok rows =>
          have hs := processStack_ok_shape hp
          subst hs
          simp [runStacks_eq auto cfg fac rest]
      | error e => simp

/-- When every stack succeeds, the completed prefix is the whole list. -/
theorem completedStacks_all_ok (auto : StackData → Nat → Int) (cfg : Config)
    (fac : Rat) : ∀ l : List StackData,
    (∀ s ∈ l, ∃ rows, processStack auto cfg fac s = .ok rows) →
    completedStacks auto cfg fac l = l
  | [], _ => rfl
  | s :: rest, h => by
      obtain ⟨rows, hrows⟩ := h s (by simp)
      rw [completedStacks, hrows]
      rw [completedStacks_all_ok auto cfg fac rest
        (fun t ht => h t (by simp [ht]))]

/-- The loop relation is realised by the loop function. -/
theorem batchRun_runStacks (auto : StackData → Nat → Int) (cfg : Config)
    (fac : Rat) : ∀ (l : List StackData) (file : List (List Cell)),
    BatchRun auto cfg fac l file (runStacks auto cfg fac l file)
  | [], file => by rw [runStacks]; exact .done file
  | s :: rest, file => by
      rw [runStacks]
      cases hp : processStack auto cfg fac s with
      | ok rows =>
          exact .step_ok s rest file rows _ hp
            (batchRun_runStacks auto cfg fac rest (file ++ rows))
      | error e =>
          exact .step_err s rest file e hp

/-- A data row is never the header row: their second cells have
different constructors. -/
theorem recordRow_ne_headerRow (fac : Rat) (s : StackData) (n : Nat)
    (cfg : Config) : recordRow fac s n ≠ headerRow cfg := by
  intro h
  have h1 := congrArg (fun l => l.get? 1) h
  simp [recordRow, headerRow] at h1

theorem sum_map_constant {α : Type} (l : List α) (c : Rat) :
    (l.map fun _ => c).sum = (l.length : Rat) * c := by
  induction l with
  | nil => simp
  | cons a t ih => simp [ih]; ring

theorem window_length (k : Nat) : (window k).length = 2 * k + 1 := by
  unfold window
  rw [List.length_map, List.length_range]

/-- Box smoothing leaves a constant frame unchanged. -/
theorem boxSmooth_const (k : Nat) (f : Frame) (c : Rat)
    (hf : ∀ x y, f x y = c) : ∀ x y, boxSmooth k f x y = c := by
  intro x y
  have hne : ((2 * k + 1 : Nat) : Rat) ≠ 0 := by positivity
  unfold boxSmooth
  simp only [hf, sum_map_constant, window_length]
  field_simp
  ring

/-- With zero spatial gradients the Horn-Schunck iteration keeps the
flow field at exactly zero, whatever the temporal derivative is. -/
theorem hsIter_zero (alpha2 : Rat) (fx fy ft : Frame)
    (hfx : ∀ x y, fx x y = 0) (hfy : ∀ x y, fy x y = 0) :
    ∀ n x y, (hsIter (hsStep alpha2 fx fy ft) n).1 x y = 0 ∧
      (hsIter (hsStep alpha2 fx fy ft) n).2 x y = 0 := by
  intro n
  induction n with
  | zero => intro x y; exact ⟨rfl, rfl⟩
  | succ m ih =>
    intro x y
    have h1 : ∀ a b, (hsIter (hsStep alpha2 fx fy ft) m).1 a b = 0 :=
      fun a b => (ih a b).1
    have h2 : ∀ a b, (hsIter (hsStep alpha2 fx fy ft) m).2 a b = 0 :=
      fun a b => (ih a b).2
    have hu := boxSmooth_const 1 _ 0 h1
    have hv := boxSmooth_const 1 _ 0 h2
    constructor
    · show (hsStep alpha2 fx fy ft (hsIter (hsStep alpha2 fx fy ft) m)).1
        x y = 0
      simp [hsStep, hu, hv, hfx, hfy]
    · show (hsStep alpha2 fx fy ft (hsIter (hsStep alpha2 fx fy ft) m)).2
        x y = 0
      simp [hsStep, hu, hv, hfx, hfy]

/-!
### The claims
-/

/-- C1 — the claim states that when the `halfspan` configuration is set
the user-supplied value is passed to `local_velocity_analysis` and the
call proceeds without error.  The code only binds `halfspan_tmp` inside
the `if halfspan is None` branch (lines 91-92), so with `halfspan = 25`
the call at line 113 hits an unbound name and raises NameError; with
`halfspan = None` the auto value is passed as the claim says.  This
theorem evaluates both branches of the embedded selection logic. -/
theorem claim1_halfspan_nameerror :
    halfspanArgument autoFive
        { sampleConfig with halfspan := some 25 } sampleStack =
      .error "NameError: name halfspan_tmp is not defined" ∧
    halfspanArgument autoFive sampleConfig sampleStack = .ok 5 :=
  ⟨rfl, rfl⟩

/-- C2 (counterexample) — the claim lists ten row fields starting with
the velocity magnitude, but the row written at lines 132-146 has eleven
fields and starts with the stack filename. -/
theorem claim2_counterexample :
    csvRow 1 sampleStack 0 = some (recordRow 1 sampleStack 0) ∧
    (recordRow 1 sampleStack 0).length = 11 ∧
    (recordRow 1 sampleStack 0).get? 0 = some (.str "stackA") ∧
    (recordRow 1 sampleStack 0).get? 1 = some (.val 2) := by
  refine ⟨rfl, rfl, rfl, by simp [recordRow, sampleStack]⟩

/-- C2 (amended) — one CSV data row per index of the velocities
sequence; each row is `recordRow`: the stack filename followed by the
ten per-record values (velocity scaled by the unit factor, forward
wavevector x/y, crest x/y, frame number, and both frames' fitted peak
position/intensity) in exactly that order. -/
theorem claim2_per_record_rows (fac : Rat) (s : StackData)
    (h : aligned s) :
    ∃ rows, writeRows fac s (List.range s.velocities.length) = some rows ∧
      rows.length = s.velocities.length ∧
      (∀ n, n < s.velocities.length →
        rows.get? n = some (recordRow fac s n)) ∧
      ∀ n, (recordRow fac s n).length = 11 := by
  refine ⟨(List.range s.velocities.length).map (recordRow fac s),
    writeRows_of_aligned fac s h _ (fun n hn => List.mem_range.mp hn),
    by simp, fun n hn => ?_, fun n => rfl⟩
  rw [List.get?_map, List.get?_range hn]
  rfl

/-- C2 (amended) witness at a concrete aligned stack. -/
theorem claim2_witness :
    aligned sampleStack ∧
    ∃ rows,
      writeRows 1 sampleStack (List.range sampleStack.velocities.length) =
        some rows ∧
      rows.length = sampleStack.velocities.length ∧
      (∀ n, n < sampleStack.velocities.length →
        rows.get? n = some (recordRow 1 sampleStack n)) ∧
      ∀ n, (recordRow 1 sampleStack n).length = 11 :=
  ⟨by decide, claim2_per_record_rows 1 sampleStack (by decide)⟩

/-- C3 — each stack is processed to completion before the next begins
and the CSV data rows appear in per-stack, per-record order: when every
stack succeeds, the file is the header followed by each stack's row
block in input order, and within a block row `n` is the row of record
index `n`. -/
theorem claim3_sequential_order (auto : StackData → Nat → Int)
    (cfg : Config) (fac : Rat) (l : List StackData)
    (hfac : factorOf cfg = .ok fac)
    (hok : ∀ s ∈ l, ∃ rows, processStack auto cfg fac s = .ok rows) :
    batchFile auto cfg l =
      headerRow cfg :: l.flatMap (stackRecordRows fac) ∧
    ∀ (s : StackData) (m : Rat) (n : Nat), n < s.velocities.length →
      (stackRecordRows m s).get? n = some (recordRow m s n) := by
  constructor
  · simp only [batchFile, hfac]
    rw [runStacks_eq, completedStacks_all_ok auto cfg fac l hok]
    rfl
  · intro s m n hn
    rw [stackRecordRows, List.get?_map, List.get?_range hn]
    rfl

/-- C3 witness: a two-stack batch, all hypotheses discharged. -/
theorem claim3_witness :
    factorOf sampleConfig = .ok 1 ∧
    batchFile autoFive sampleConfig [sampleStack, sampleStack2] =
      headerRow sampleConfig ::
        [sampleStack, sampleStack2].flatMap (stackRecordRows 1) :=
  ⟨rfl, (claim3_sequential_order autoFive sampleConfig 1
    [sampleStack, sampleStack2] rfl (by
      intro s hs
      fin_cases hs
      · exact ⟨_, rfl⟩
      · exact ⟨_, rfl⟩)).1⟩

/-- C4 — determinism: any two runs of the stack loop relation from the
same stacks, configuration and initial file produce the same file; the
loop has no other inputs, so the CSV contents are a function of stacks
and configuration. -/
theorem claim4_deterministic (auto : StackData → Nat → Int) (cfg : Config)
    (fac : Rat) (l : List StackData) (file out1 out2 : List (List Cell))
    (h1 : BatchRun auto cfg fac l file out1)
    (h2 : BatchRun auto cfg fac l file out2) : out1 = out2 := by
  induction h1 generalizing out2 with
  | done f0 =>
      cases h2 with
      | done => rfl
  | step_ok s rest f0 rows out hp hrun ih =>
      cases h2 with
      | step_ok _ _ _ rows2 out2 hp2 hrun2 =>
          rw [hp] at hp2
          injection hp2 with hrows
          subst hrows
          exact ih _ hrun2
      | step_err _ _ _ e hp2 =>
          rw [hp] at hp2
          cases hp2
  | step_err s rest f0 e hp =>
      cases h2 with
      | step_ok _ _ _ rows2 out2 hp2 hrun2 =>
          rw [hp] at hp2
          cases hp2
      | step_err => rfl

/-- C4 witness: two relational runs on the same concrete batch give the
same file. -/
theorem claim4_witness :
    runStacks autoFive sampleConfig 1 [sampleStack]
        [headerRow sampleConfig] =
      runStacks autoFive sampleConfig 1 [sampleStack]
        [headerRow sampleConfig] :=
  claim4_deterministic autoFive sampleConfig 1 [sampleStack]
    [headerRow sampleConfig] _ _
    (batchRun_runStacks autoFive sampleConfig 1 [sampleStack]
      [headerRow sampleConfig])
    (batchRun_runStacks autoFive sampleConfig 1 [sampleStack]
      [headerRow sampleConfig])

/-- C5 (counterexample) — the claim asserts some configuration makes the
batch program invoke the analysis with `look_ahead = -1`; no SET
configuration does, because line 120 passes the literal `1`. -/
theorem claim5_counterexample :
    ¬ ∃ cfg : Config, lookAheadArgument cfg = -1 := by
  rintro ⟨cfg, h⟩
  simp [lookAheadArgument] at h

/-- C5 (amended) — the batch program always invokes the analysis with
the hard-coded argument `look_ahead = 1` (the source comment documents
`1=forward, -1 is backward`); `look_ahead` is not a configuration input
of this script. -/
theorem claim5_look_ahead_constant (cfg : Config) :
    lookAheadArgument cfg = 1 := rfl

/-- C6 — under index alignment, every sequence access performed by the
CSV loop at a record index is in bounds, and so is the assembled row. -/
theorem claim6_accesses_in_bounds (fac : Rat) (s : StackData)
    (h : aligned s) (n : Nat) (hn : n < s.velocities.length) :
    ((s.velocities.get? n).isSome ∧
     (s.forward_wavevector_x.get? n).isSome ∧
     (s.forward_wavevector_y.get? n).isSome ∧
     (s.crests_x.get? n).isSome ∧
     (s.crests_y.get? n).isSome ∧
     (s.framenr.get? n).isSome ∧
     (s.max_x1.get? n).isSome ∧
     (s.max_y1.get? n).isSome ∧
     (s.max_x2.get? n).isSome ∧
     (s.max_y2.get? n).isSome) ∧
    (csvRow fac s n).isSome := by
  obtain ⟨h1, h2, h3, h4, h5, h6, h7, h8, h9⟩ := h
  refine ⟨⟨?_, ?_, ?_, ?_, ?_, ?_, ?_, ?_, ?_, ?_⟩, ?_⟩
  · exact Option.isSome_iff_exists.mpr (exists_get?_of_lt hn)
  · exact Option.isSome_iff_exists.mpr (exists_get?_of_lt (h1 ▸ hn))
  · exact Option.isSome_iff_exists.mpr (exists_get?_of_lt (h2 ▸ hn))
  · exact Option.isSome_iff_exists.mpr (exists_get?_of_lt (h3 ▸ hn))
  · exact Option.isSome_iff_exists.mpr (exists_get?_of_lt (h4 ▸ hn))
  · exact Option.isSome_iff_exists.mpr (exists_get?_of_lt (h5 ▸ hn))
  · exact Option.isSome_iff_exists.mpr (exists_get?_of_lt (h6 ▸ hn))
  · exact Option.isSome_iff_exists.mpr (exists_get?_of_lt (h7 ▸ hn))
  · exact Option.isSome_iff_exists.mpr (exists_get?_of_lt (h8 ▸ hn))
  · exact Option.isSome_iff_exists.mpr (exists_get?_of_lt (h9 ▸ hn))
  · rw [csvRow_of_aligned fac s n ⟨h1, h2, h3, h4, h5, h6, h7, h8, h9⟩ hn]
    rfl

/-- C6 witness at a concrete aligned stack and index. -/
theorem claim6_witness :
    aligned sampleStack ∧ 0 < sampleStack.velocities.length ∧
    (((sampleStack.velocities.get? 0).isSome ∧
      (sampleStack.forward_wavevector_x.get? 0).isSome ∧
      (sampleStack.forward_wavevector_y.get? 0).isSome ∧
      (sampleStack.crests_x.get? 0).isSome ∧
      (sampleStack.crests_y.get? 0).isSome ∧
      (sampleStack.framenr.get? 0).isSome ∧
      (sampleStack.max_x1.get? 0).isSome ∧
      (sampleStack.max_y1.get? 0).isSome ∧
      (sampleStack.max_x2.get? 0).isSome ∧
      (sampleStack.max_y2.get? 0).isSome) ∧
     (csvRow 1 sampleStack 0).isSome) :=
  ⟨by decide, by decide,
   claim6_accesses_in_bounds 1 sampleStack (by decide) 0 (by decide)⟩

/-- C7 — for a uniform frame pair the optical-flow solver returns the
exact zero vector field at every grid position; the solver is a total
function, so the degenerate pair is not an error. -/
theorem claim7_uniform_zero_flow (k : Nat) (alpha2 : Rat) (iters : Nat)
    (f g : Frame) (c1 c2 : Rat) (hf : ∀ x y, f x y = c1)
    (hg : ∀ x y, g x y = c2) :
    ∀ x y, (FlowField_compute k alpha2 iters f g).1 x y = 0 ∧
      (FlowField_compute k alpha2 iters f g).2 x y = 0 := by
  intro x y
  have hfs := boxSmooth_const k f c1 hf
  have hfx : ∀ a b, gradX (boxSmooth k f) a b = 0 := by
    intro a b; simp [gradX, hfs]
  have hfy : ∀ a b, gradY (boxSmooth k f) a b = 0 := by
    intro a b; simp [gradY, hfs]
  exact hsIter_zero alpha2 _ _ _ hfx hfy iters x y

/-- C7 witness: two concrete uniform frames, two solver iterations. -/
theorem claim7_witness :
    (∀ x y : Int, (fun _ _ => (3 : Rat)) x y = 3) ∧
    (∀ x y : Int, (fun _ _ => (7 : Rat)) x y = 7) ∧
    (FlowField_compute 1 1 2 (fun _ _ => (3 : Rat))
        (fun _ _ => (7 : Rat))).1 0 0 = 0 ∧
    (FlowField_compute 1 1 2 (fun _ _ => (3 : Rat))
        (fun _ _ => (7 : Rat))).2 0 0 = 0 :=
  ⟨fun _ _ => rfl, fun _ _ => rfl,
   (claim7_uniform_zero_flow 1 1 2 _ _ 3 7 (fun _ _ => rfl)
      (fun _ _ => rfl) 0 0).1,
   (claim7_uniform_zero_flow 1 1 2 _ _ 3 7 (fun _ _ => rfl)
      (fun _ _ => rfl) 0 0).2⟩

/-- C8 (counterexample) — the claim says an invalid stack leaves the
rest of the batch unaffected.  In the script an exception aborts the
whole run: with a too-short second stack, the valid third stack's row
never reaches the file. -/
theorem claim8_counterexample :
    batchFile autoFive sampleConfig [sampleStack, shortStack, sampleStack2] =
      [headerRow sampleConfig, recordRow 1 sampleStack 0] ∧
    recordRow 1 sampleStack2 0 ∉
      batchFile autoFive sampleConfig
        [sampleStack, shortStack, sampleStack2] := by
  constructor
  · rfl
  · intro hmem
    have heq : batchFile autoFive sampleConfig
        [sampleStack, shortStack, sampleStack2] =
        [headerRow sampleConfig, recordRow 1 sampleStack 0] := rfl
    rw [heq] at hmem
    simp only [List.mem_cons, List.not_mem_nil, or_false] at hmem
    rcases hmem with h | h
    · exact recordRow_ne_headerRow 1 sampleStack2 0 sampleConfig h
    · have := congrArg (fun l => l.get? 0) h
      simp [recordRow, sampleStack, sampleStack2] at this

/-- C8 (amended) — a configuration error is raised before any per-frame
processing of the offending stack: no rows for it are written, and the
uncaught exception ends the run, so the stacks after it are not
processed (the file stays exactly as it was). -/
theorem claim8_config_error_aborts_run (auto : StackData → Nat → Int)
    (cfg : Config) (fac : Rat) (s : StackData) (rest : List StackData)
    (file : List (List Cell)) (e : String) (hh : cfg.halfspan = none)
    (hv : localVelocityValidate cfg s = .error e) :
    processStack auto cfg fac s = .error e ∧
    runStacks auto cfg fac (s :: rest) file = file := by
  have hp : processStack auto cfg fac s = .error e := by
    simp [processStack, halfspanArgument, hh, hv, bind, Except.bind]
  refine ⟨hp, ?_⟩
  rw [runStacks, hp]

/-- C8 (amended) witness: the too-short stack aborts a concrete run. -/
theorem claim8_witness :
    sampleConfig.halfspan = none ∧
    localVelocityValidate sampleConfig shortStack =
      .error "ConfigurationError: frames_to_analyse exceeds stack length" ∧
    processStack autoFive sampleConfig 1 shortStack =
      .error "ConfigurationError: frames_to_analyse exceeds stack length" ∧
    runStacks autoFive sampleConfig 1 [shortStack, sampleStack2]
        [headerRow sampleConfig] = [headerRow sampleConfig] := by
  refine ⟨rfl, rfl, ?_⟩
  have h := claim8_config_error_aborts_run autoFive sampleConfig 1
    shortStack [sampleStack2] [headerRow sampleConfig]
    "ConfigurationError: frames_to_analyse exceeds stack length" rfl rfl
  exact h

/-- C9 — the velocity cell of each data row is `velocities[n] * factor`
with `factor = nmperpix * frpermin / 60` when both unit settings are
given (the code's `nmperpix / (60 / frpermin)` equals it) and
`factor = 1` when either is `None`; every other cell of the row is the
raw sequence value, never scaled. -/
theorem claim9_velocity_scaling (cfg cfgNone : Config) (s : StackData)
    (n : Nat) (p q : Rat) (hp : cfg.nmperpix = some p)
    (hq : cfg.frpermin = some q) (hq0 : q ≠ 0)
    (hnone : cfgNone.nmperpix = none ∨ cfgNone.frpermin = none) :
    factorOf cfg = .ok (p * q / 60) ∧
    factorOf cfgNone = .ok 1 ∧
    ∀ fac : Rat,
      (recordRow fac s n).get? 0 = some (.str s.name) ∧
      (recordRow fac s n).get? 1 =
        some (.val (((s.velocities.get? n).getD 0) * fac)) ∧
      (recordRow fac s n).get? 2 =
        some (.val ((s.forward_wavevector_x.get? n).getD 0)) ∧
      (recordRow fac s n).get? 3 =
        some (.val ((s.forward_wavevector_y.get? n).getD 0)) ∧
      (recordRow fac s n).get? 4 =
        some (.val ((s.crests_x.get? n).getD 0)) ∧
      (recordRow fac s n).get? 5 =
        some (.val ((s.crests_y.get? n).getD 0)) ∧
      (recordRow fac s n).get? 6 =
        some (.val ((s.framenr.get? n).getD 0)) ∧
      (recordRow fac s n).get? 7 =
        some (.val ((s.max_x1.get? n).getD 0)) ∧
      (recordRow fac s n).get? 8 =
        some (.val ((s.max_y1.get? n).getD 0)) ∧
      (recordRow fac s n).get? 9 =
        some (.val ((s.max_x2.get? n).getD 0)) ∧
      (recordRow fac s n).get? 10 =
        some (.val ((s.max_y2.get? n).getD 0)) := by
  refine ⟨?_, ?_, ?_⟩
  · have h60 : (60 : Rat) / q ≠ 0 := by
      intro h
      rcases div_eq_zero_iff.mp h with h | h
      · norm_num at h
      · exact hq0 h
    simp only [factorOf, hp, hq, pyDiv, if_neg hq0, if_neg h60, bind,
      Except.bind, Except.ok.injEq]
    rw [div_div_eq_mul_div]
  · rcases hnone with h | h
    · cases hv : cfgNone.frpermin <;> simp [factorOf, h, hv]
    · cases hv : cfgNone.nmperpix <;> simp [factorOf, h, hv]
  · intro fac
    exact ⟨rfl, rfl, rfl, rfl, rfl, rfl, rfl, rfl, rfl, rfl, rfl⟩

/-- C9 witness at concrete unit settings `nmperpix = 2, frpermin = 3`
(factor `1/10`) and the shipped `None/None` settings (factor `1`). -/
theorem claim9_witness :
    cfgUnits.nmperpix = some 2 ∧ cfgUnits.frpermin = some 3 ∧
    (3 : Rat) ≠ 0 ∧
    (sampleConfig.nmperpix = none ∨ sampleConfig.frpermin = none) ∧
    factorOf cfgUnits = .ok (2 * 3 / 60) ∧
    factorOf sampleConfig = .ok 1 ∧
    (recordRow (1 : Rat) sampleStack 0).get? 1 =
      some (.val (((sampleStack.velocities.get? 0).getD 0) * 1)) := by
  have h := claim9_velocity_scaling cfgUnits sampleConfig sampleStack 0 2 3
    rfl rfl (by norm_num) (Or.inl rfl)
  exact ⟨rfl, rfl, by norm_num, Or.inl rfl, h.1, h.2.1, (h.2.2 1).2.1⟩

/-- C10 — the CSV file starts as exactly the 11-column header (the "w"
open truncates whatever was there), and after any number of loop
iterations it is the header followed only by data rows of the completed
stacks in processing order; no data row ever equals the header row. -/
theorem claim10_header_once (auto : StackData → Nat → Int) (cfg : Config)
    (fac : Rat) (l : List StackData) (i : Nat)
    (hfac : factorOf cfg = .ok fac) :
    (headerRow cfg).length = 11 ∧
    runStacks auto cfg fac (l.take i) [headerRow cfg] =
      headerRow cfg ::
        (completedStacks auto cfg fac (l.take i)).flatMap
          (stackRecordRows fac) ∧
    batchFile auto cfg l =
      headerRow cfg ::
        (completedStacks auto cfg fac l).flatMap (stackRecordRows fac) ∧
    ∀ r ∈ (completedStacks auto cfg fac l).flatMap (stackRecordRows fac),
      r ≠ headerRow cfg := by
  refine ⟨rfl, ?_, ?_, ?_⟩
  · rw [runStacks_eq]
    rfl
  · simp only [batchFile, hfac]
    rw [runStacks_eq]
    rfl
  · intro r hr
    rw [List.mem_flatMap] at hr
    obtain ⟨s, hs, hrs⟩ := hr
    rw [stackRecordRows, List.mem_map] at hrs
    obtain ⟨n, hn, hrn⟩ := hrs
    exact hrn ▸ recordRow_ne_headerRow fac s n cfg

/-- C10 witness on a concrete one-stack run. -/
theorem claim10_witness :
    factorOf sampleConfig = .ok 1 ∧
    (headerRow sampleConfig).length = 11 ∧
    runStacks autoFive sampleConfig 1 ([sampleStack].take 1)
        [headerRow sampleConfig] =
      headerRow sampleConfig ::
        (completedStacks autoFive sampleConfig 1
          ([sampleStack].take 1)).flatMap (stackRecordRows 1) ∧
    batchFile autoFive sampleConfig [sampleStack] =
      headerRow sampleConfig ::
        (completedStacks autoFive sampleConfig 1
          [sampleStack]).flatMap (stackRecordRows 1) ∧
    ∀ r ∈ (completedStacks autoFive sampleConfig 1
        [sampleStack]).flatMap (stackRecordRows 1),
      r ≠ headerRow sampleConfig := by
  have h := claim10_header_once autoFive sampleConfig 1 [sampleStack] 1 rfl
  exact ⟨rfl, h.1, h.2.1, h.2.2.1, h.2.2.2⟩

end MinDE
